import Mathlib

set_option maxHeartbeats 1000000

/-!
Verification development for `funding_watch.py`.

The Python source is shallowly embedded below: calendar dates become a
`Date` structure over `Nat` fields, `datetime.strptime` for the three
formats `%d.%m.%Y`, `%d.%m.%y`, `%Y-%m-%d` is modelled char-by-char after
CPython's `_strptime` regexes, `re.search` for the two date patterns of
`find_date_in_text` is modelled as a leftmost-match scan with word-boundary
checks, and the RSS/HTML extractors and the collector are modelled as pure
functions over explicit feed/page data.  The two clocks of the script
(`date.today()` used for classification and `datetime.utcnow()` used for the
output date field) are passed in as explicit `today` / `utcToday` arguments.
-/

namespace FundingWatch

/-- A calendar date, as produced by Python's `datetime.date`. -/
structure Date where
  year : Nat
  month : Nat
  day : Nat
deriving DecidableEq

/-- Python `date` comparison: lexicographic on (year, month, day). -/
def dateLt (a b : Date) : Bool :=
  decide (a.year < b.year ∨ (a.year = b.year ∧
    (a.month < b.month ∨ (a.month = b.month ∧ a.day < b.day))))

/-- Gregorian leap year rule used by Python's `datetime`. -/
def isLeap (y : Nat) : Bool :=
  decide (y % 4 = 0 ∧ (y % 100 ≠ 0 ∨ y % 400 = 0))

/-- Days in a month, as validated by Python's `datetime.date`. -/
def daysInMonth (y m : Nat) : Nat :=
  if m = 2 then (if isLeap y = true then 29 else 28)
  else if m = 4 ∨ m = 6 ∨ m = 9 ∨ m = 11 then 30
  else 31

/-- Python `date(year, month, day)` constructor validity check. -/
def validYMD (y m d : Nat) : Bool :=
  decide (1 ≤ y ∧ y ≤ 9999 ∧ 1 ≤ m ∧ m ≤ 12 ∧ 1 ≤ d ∧ d ≤ daysInMonth y m)

/-- Python `date(year, month, day)`: a date when valid, `ValueError` (here
`none`) otherwise. -/
def mkDate? (y m d : Nat) : Option Date :=
  if validYMD y m d = true then some ⟨y, m, d⟩ else none

/-! ### Characters -/

/-- ASCII digit test, modelling the regex class `\d` on the inputs at hand. -/
def isDigitC (c : Char) : Bool := decide (48 ≤ c.toNat ∧ c.toNat ≤ 57)

/-- Numeric value of a digit character. -/
def digitVal (c : Char) : Nat := c.toNat - 48

/-- Digit character for a value below 10. -/
def digitChar (v : Nat) : Char := Char.ofNat (48 + v)

/-- ASCII whitespace, modelling Python `str.strip`'s default set. -/
def isSpaceC (c : Char) : Bool := decide (c.toNat = 32 ∨ (9 ≤ c.toNat ∧ c.toNat ≤ 13))

/-- Word character, modelling the regex class `\w` for the ASCII texts at hand. -/
def isWordChar (c : Char) : Bool :=
  decide ((48 ≤ c.toNat ∧ c.toNat ≤ 57) ∨ (65 ≤ c.toNat ∧ c.toNat ≤ 90) ∨
    (97 ≤ c.toNat ∧ c.toNat ≤ 122) ∨ c.toNat = 95)

/-- Lower-casing of one character, modelling Python `str.lower` for ASCII plus
the Finnish letters appearing in the closing signals. -/
def charLower (c : Char) : Char :=
  if 65 ≤ c.toNat ∧ c.toNat ≤ 90 then Char.ofNat (c.toNat + 32)
  else if c = 'Ä' then 'ä'
  else if c = 'Ö' then 'ö'
  else if c = 'Å' then 'å'
  else c

/-- Lower-casing of a character list (Python `str.lower`). -/
def toLowerL (cs : List Char) : List Char := cs.map charLower

/-- Does `l` start with `pre`? -/
def startsWithL : List Char → List Char → Bool
  | [], _ => true
  | _ :: _, [] => false
  | p :: ps, c :: cs => if p = c then startsWithL ps cs else false

/-- Substring containment, modelling Python's `needle in hay`. -/
def containsSub (hay needle : List Char) : Bool :=
  if startsWithL needle hay = true then true
  else
    match hay with
    | [] => false
    | _ :: t => containsSub t needle

/-- Python `str.strip()` on a character list. -/
def trimL (cs : List Char) : List Char :=
  ((cs.dropWhile isSpaceC).reverse.dropWhile isSpaceC).reverse

/-- Python `str.strip()` on a string. -/
def stripS (s : String) : String := String.mk (trimL s.data)

/-! ### strptime and the fallback regex of `parse_date_string`

CPython's `_strptime` matches `%d` with `(3[01]|[12]\d|0[1-9]|[1-9])`, `%m`
with `(1[0-2]|0[1-9]|[1-9])`, `%Y` with `\d\d\d\d` and `%y` with `\d\d`,
anchored at the start, and rejects the parse when characters remain.  The
two-digit alternatives of `%d`/`%m` accept exactly the two-digit numbers in
range (1–31 resp. 1–12, excluding `00`); whenever a two-digit alternative
matches, the following character of the string is a digit, so backtracking
into the one-digit alternative can never rescue a failed continuation
(every continuation expects `.`, `-` or end of input).  The committed
matchers below are therefore equivalent to the regexes. -/

/-- Matcher for the strptime directive `%d` (day 1–31, leading zero optional). -/
def matchD2 : List Char → Option (Nat × List Char)
  | c1 :: c2 :: rest =>
    if isDigitC c1 = true ∧ isDigitC c2 = true ∧
        1 ≤ 10 * digitVal c1 + digitVal c2 ∧ 10 * digitVal c1 + digitVal c2 ≤ 31 then
      some (10 * digitVal c1 + digitVal c2, rest)
    else if isDigitC c1 = true ∧ 1 ≤ digitVal c1 then
      some (digitVal c1, c2 :: rest)
    else none
  | [c1] =>
    if isDigitC c1 = true ∧ 1 ≤ digitVal c1 then some (digitVal c1, []) else none
  | [] => none

/-- Matcher for the strptime directive `%m` (month 1–12, leading zero optional). -/
def matchM2 : List Char → Option (Nat × List Char)
  | c1 :: c2 :: rest =>
    if isDigitC c1 = true ∧ isDigitC c2 = true ∧
        1 ≤ 10 * digitVal c1 + digitVal c2 ∧ 10 * digitVal c1 + digitVal c2 ≤ 12 then
      some (10 * digitVal c1 + digitVal c2, rest)
    else if isDigitC c1 = true ∧ 1 ≤ digitVal c1 then
      some (digitVal c1, c2 :: rest)
    else none
  | [c1] =>
    if isDigitC c1 = true ∧ 1 ≤ digitVal c1 then some (digitVal c1, []) else none
  | [] => none

/-- Exactly four digits (`%Y` of strptime, `\d{4}` of the fallback regex). -/
def grab4 : List Char → Option (Nat × List Char)
  | c1 :: c2 :: c3 :: c4 :: rest =>
    if isDigitC c1 = true ∧ isDigitC c2 = true ∧ isDigitC c3 = true ∧ isDigitC c4 = true then
      some (1000 * digitVal c1 + 100 * digitVal c2 + 10 * digitVal c3 + digitVal c4, rest)
    else none
  | _ => none

/-- Exactly two digits (`%y` of strptime). -/
def grab2exact : List Char → Option (Nat × List Char)
  | c1 :: c2 :: rest =>
    if isDigitC c1 = true ∧ isDigitC c2 = true then
      some (10 * digitVal c1 + digitVal c2, rest)
    else none
  | _ => none

/-- Greedy `\d{1,2}` of the fallback regex `(\d{1,2})\.(\d{1,2})\.(\d{4})`:
take two digits when available, else one.  When two digits are taken the
following character is a digit, so the one-digit backtrack (which would need
a `.` there) can never succeed; committing is equivalent. -/
def grab2 : List Char → Option (Nat × List Char)
  | c1 :: c2 :: rest =>
    if isDigitC c1 = true then
      (if isDigitC c2 = true then some (10 * digitVal c1 + digitVal c2, rest)
       else some (digitVal c1, c2 :: rest))
    else none
  | [c1] => if isDigitC c1 = true then some (digitVal c1, []) else none
  | [] => none

/-- Consume the literal `.` separator of a format after a matched
directive; fail otherwise. -/
def expectDot (o : Option (Nat × List Char)) : Option (Nat × List Char) :=
  match o with
  | some (v, c :: rest) => if c = '.' then some (v, rest) else none
  | _ => none

/-- Consume the literal `-` separator of a format after a matched
directive; fail otherwise. -/
def expectDash (o : Option (Nat × List Char)) : Option (Nat × List Char) :=
  match o with
  | some (v, c :: rest) => if c = '-' then some (v, rest) else none
  | _ => none

/-- The end-of-input check of strptime and of `re.fullmatch`: the parse
fails when unconverted characters remain. -/
def expectEnd (o : Option (Nat × List Char)) : Option Nat :=
  match o with
  | some (v, []) => some v
  | _ => none

/-- Tail of `%d.%m.%Y` after the day and its dot: month, dot, 4-digit year,
end of input, then the validated `date` construction. -/
def dmYTail (d : Nat) (cs1 : List Char) : Option Date :=
  match expectDot (matchM2 cs1) with
  | some (m, cs2) =>
    (match expectEnd (grab4 cs2) with
     | some y => mkDate? y m d
     | none => none)
  | none => none

/-- `datetime.strptime(value, "%d.%m.%Y").date()`, `ValueError` as `none`. -/
def strptime_dmY (cs : List Char) : Option Date :=
  match expectDot (matchD2 cs) with
  | some (d, cs1) => dmYTail d cs1
  | none => none

/-- Tail of `%d.%m.%y` after the day and its dot: month, dot, 2-digit year,
end of input; the two-digit year is mapped to 2000–2068 / 1969–1999 by
CPython's pivot. -/
def dmyTail (d : Nat) (cs1 : List Char) : Option Date :=
  match expectDot (matchM2 cs1) with
  | some (m, cs2) =>
    (match expectEnd (grab2exact cs2) with
     | some y2 => mkDate? (if y2 ≤ 68 then 2000 + y2 else 1900 + y2) m d
     | none => none)
  | none => none

/-- `datetime.strptime(value, "%d.%m.%y").date()`, `ValueError` as `none`. -/
def strptime_dmy (cs : List Char) : Option Date :=
  match expectDot (matchD2 cs) with
  | some (d, cs1) => dmyTail d cs1
  | none => none

/-- Tail of `%Y-%m-%d` after the year and its dash: month, dash, day, end
of input, then the validated `date` construction. -/
def YmdTail (y : Nat) (cs1 : List Char) : Option Date :=
  match expectDash (matchM2 cs1) with
  | some (m, cs2) =>
    (match expectEnd (matchD2 cs2) with
     | some d => mkDate? y m d
     | none => none)
  | none => none

/-- `datetime.strptime(value, "%Y-%m-%d").date()`, `ValueError` as `none`. -/
def strptime_Ymd (cs : List Char) : Option Date :=
  match expectDash (grab4 cs) with
  | some (y, cs1) => YmdTail y cs1
  | none => none

/-- `re.fullmatch(r"(\d{1,2})\.(\d{1,2})\.(\d{4})", value)`, returning the
three numeric groups `(day, month, year)`. -/
def fullmatchDMY (cs : List Char) : Option (Nat × Nat × Nat) :=
  match expectDot (grab2 cs) with
  | some (d, cs1) =>
    (match expectDot (grab2 cs1) with
     | some (m, cs2) =>
       (match expectEnd (grab4 cs2) with
        | some y => some (d, m, y)
        | none => none)
     | none => none)
  | none => none

/-- Body of `parse_date_string` after the initial `value.strip()`: the three
strptime formats in order, then the fallback regex with a validated `date`
construction. -/
def parseDateCore (cs : List Char) : Option Date :=
  match strptime_dmY cs with
  | some d => some d
  | none =>
    (match strptime_dmy cs with
     | some d => some d
     | none =>
       (match strptime_Ymd cs with
        | some d => some d
        | none =>
          (match fullmatchDMY cs with
           | some (d, m, y) => mkDate? y m d
           | none => none)))

/-- `parse_date_string` on a character list. -/
def parseDateL (cs : List Char) : Option Date := parseDateCore (trimL cs)

/-- `parse_date_string(value)` of `funding_watch.py`. -/
def parse_date_string (value : String) : Option Date := parseDateL value.data

/-! ### `re.search` for the two patterns of `find_date_in_text` -/

/-- Trailing `\b` after a digit: the next character must be a non-word
character or the end of the text. -/
def boundaryAfter : List Char → Bool
  | [] => true
  | c :: _ => !(isWordChar c)

/-- Greedy `\d{1,2}` inside the search patterns, returning the consumed
characters.  Committing to two digits is equivalent to backtracking for the
same reason as in `grab2`. -/
def grabd2 : List Char → Option (List Char × List Char)
  | c1 :: c2 :: rest =>
    if isDigitC c1 = true then
      (if isDigitC c2 = true then some ([c1, c2], rest)
       else some ([c1], c2 :: rest))
    else none
  | [c1] => if isDigitC c1 = true then some ([c1], []) else none
  | [] => none

/-- Exactly four digits inside the search patterns. -/
def grabd4 : List Char → Option (List Char × List Char)
  | c1 :: c2 :: c3 :: c4 :: rest =>
    if isDigitC c1 = true ∧ isDigitC c2 = true ∧ isDigitC c3 = true ∧ isDigitC c4 = true then
      some ([c1, c2, c3, c4], rest)
    else none
  | _ => none

/-- Exactly two digits inside the search patterns. -/
def grabd2x : List Char → Option (List Char × List Char)
  | c1 :: c2 :: rest =>
    if isDigitC c1 = true ∧ isDigitC c2 = true then some ([c1, c2], rest) else none
  | _ => none

/-- Anchored match of `\d{1,2}\.\d{1,2}\.\d{4}\b` (the leading `\b` is
checked by the caller), returning the matched substring. -/
def matchAAt (cs : List Char) : Option (List Char) :=
  match grabd2 cs with
  | some (g1, '.' :: cs1) =>
    (match grabd2 cs1 with
     | some (g2, '.' :: cs2) =>
       (match grabd4 cs2 with
        | some (g3, rest) =>
          if boundaryAfter rest = true then some (g1 ++ '.' :: g2 ++ '.' :: g3) else none
        | none => none)
     | _ => none)
  | _ => none

/-- Anchored match of `\d{4}-\d{2}-\d{2}\b` (the leading `\b` is checked by
the caller), returning the matched substring. -/
def matchBAt (cs : List Char) : Option (List Char) :=
  match grabd4 cs with
  | some (g1, '-' :: cs1) =>
    (match grabd2x cs1 with
     | some (g2, '-' :: cs2) =>
       (match grabd2x cs2 with
        | some (g3, rest) =>
          if boundaryAfter rest = true then some (g1 ++ '-' :: g2 ++ '-' :: g3) else none
        | none => none)
     | _ => none)
  | _ => none

/-- Leftmost-match scan of `re.search`.  Both patterns start with `\b\d`,
so a match can only begin where the previous character is not a word
character (`prevW = false`); the first character of the match being a digit
then makes the leading `\b` hold. -/
def searchAux (matchAt : List Char → Option (List Char)) :
    Bool → List Char → Option (List Char)
  | _, [] => none
  | prevW, c :: rest =>
    match (if prevW then none else matchAt (c :: rest)) with
    | some m => some m
    | none => searchAux matchAt (isWordChar c) rest

/-- `re.search(r"\b\d{1,2}\.\d{1,2}\.\d{4}\b", text)`, the matched substring. -/
def searchA (cs : List Char) : Option (List Char) := searchAux matchAAt false cs

/-- `re.search(r"\b\d{4}-\d{2}-\d{2}\b", text)`, the matched substring. -/
def searchB (cs : List Char) : Option (List Char) := searchAux matchBAt false cs

/-- `find_date_in_text(text)` of `funding_watch.py`: the loop over the two
patterns, unrolled.  A pattern whose first match fails to parse falls
through to the next pattern, exactly as `if parsed: return parsed` does. -/
def find_date_in_text (text : String) : Option Date :=
  match searchA text.data with
  | some m =>
    (match parseDateL m with
     | some d => some d
     | none =>
       (match searchB text.data with
        | some m2 => parseDateL m2
        | none => none))
  | none =>
    (match searchB text.data with
     | some m2 => parseDateL m2
     | none => none)

/-! ### Status classification -/

/-- `CLOSED_SIGNALS` of `funding_watch.py`. -/
def CLOSED_SIGNALS : List String :=
  ["haku päättynyt",
   "haku on päättynyt",
   "ei haettavissa",
   "hakuaika päättyi",
   "suljettu",
   "closed",
   "application period ended",
   "no longer accepting applications",
   "deadline passed"]

/-- The `any(signal in lowered for signal in CLOSED_SIGNALS)` test of
`detect_status`. -/
def hasClosedSignal (text : String) : Bool :=
  CLOSED_SIGNALS.any fun s => containsSub (toLowerL text.data) s.data

/-- `detect_status(text, date_string)` of `funding_watch.py`, with the
current date `date.today()` passed explicitly. -/
def detect_status (today : Date) (text ds : String) : String :=
  if hasClosedSignal text = true then "closed"
  else
    match find_date_in_text text with
    | some d => if dateLt d today = true then "closed" else "open"
    | none =>
      (match parse_date_string ds with
       | some d => if dateLt d today = true then "closed" else "open"
       | none => "unknown")

/-- `is_open(text, date_string)` of `funding_watch.py`. -/
def is_open (today : Date) (text ds : String) : Bool :=
  decide (detect_status today text ds = "open") ||
    decide (detect_status today text ds = "unknown")

/-! ### Extractors and collector -/

/-- One feed entry as seen through `getattr`: an absent attribute is `none`. -/
structure Entry where
  title : Option String
  link : Option String
  published : Option String
  summary : Option String
deriving DecidableEq

/-- One output row of the script. -/
structure Row where
  source_url : String
  title : String
  link : String
  date : String
  status : String
deriving DecidableEq

/-- Zero-padded two-digit rendering. -/
def pad2 (n : Nat) : List Char := [digitChar (n / 10), digitChar (n % 10)]

/-- Zero-padded four-digit rendering. -/
def pad4 (n : Nat) : List Char :=
  [digitChar (n / 1000), digitChar (n / 100 % 10), digitChar (n / 10 % 10), digitChar (n % 10)]

/-- `date.isoformat()`: `YYYY-MM-DD`. -/
def isoDate (d : Date) : String :=
  String.mk (pad4 d.year ++ '-' :: pad2 d.month ++ '-' :: pad2 d.day)

/-- The combined text `f"{title} {summary}".strip()` of `parse_rss`. -/
def combinedText (e : Entry) : String :=
  stripS ((e.title.getD "No title") ++ " " ++ (e.summary.getD ""))

/-- The row built for one retained feed entry in `parse_rss`. -/
def rssRow (today utcToday : Date) (url : String) (e : Entry) : Row :=
  { source_url := url,
    title := e.title.getD "No title",
    link := e.link.getD url,
    date := if e.published.getD "" = "" then isoDate utcToday else e.published.getD "",
    status := detect_status today (combinedText e) (e.published.getD "") }

/-- The `for entry in feed.entries[:5]` loop body of `parse_rss`. -/
def rssLoop (today utcToday : Date) (url : String) : List Entry → List Row
  | [] => []
  | e :: es =>
    if is_open today (combinedText e) (e.published.getD "") = true then
      rssRow today utcToday url e :: rssLoop today utcToday url es
    else rssLoop today utcToday url es

/-- `parse_rss(url)` of `funding_watch.py`, over the parsed feed entries. -/
def parse_rss (today utcToday : Date) (url : String) (entries : List Entry) : List Row :=
  if entries.isEmpty = true then [] else rssLoop today utcToday url (entries.take 5)

/-- The fetched page as seen by `parse_html`: title element, first `href`,
visible text. -/
structure Page where
  title : Option String
  href : Option String
  text : String
deriving DecidableEq

/-- The single row built by `parse_html` for a retained page. -/
def htmlRow (today utcToday : Date) (url : String) (pg : Page) : Row :=
  { source_url := url,
    title := match pg.title with | some t => stripS t | none => "No title",
    link := pg.href.getD url,
    date := isoDate utcToday,
    status := detect_status today pg.text "" }

/-- `parse_html(url)` of `funding_watch.py`; `none` models a fetch failure
or non-success HTTP status (the caught `RequestException`). -/
def parse_html (today utcToday : Date) (url : String) (page : Option Page) : List Row :=
  match page with
  | none => []
  | some pg => if is_open today pg.text "" = true then [htmlRow today utcToday url pg] else []

/-- One configured source: its URL, its parsed feed entries, and the page
the HTML fallback would fetch. -/
structure Source where
  url : String
  entries : List Entry
  page : Option Page
deriving DecidableEq

/-- `collect_rows(sources)` of `funding_watch.py`: feed extractor first,
HTML fallback when it returned no rows. -/
def collect_rows (today utcToday : Date) : List Source → List Row
  | [] => []
  | s :: rest =>
    (let rss_rows := parse_rss today utcToday s.url s.entries
     if rss_rows.isEmpty = true then parse_html today utcToday s.url s.page else rss_rows)
    ++ collect_rows today utcToday rest

/-! ### Renderings of the three supported literal formats (spec side)

The spec's round-trip property (claim C4) quantifies over dates rendered in
the three supported literal formats; the source never renders these, so the
renderings below follow the spec's words: day and month without forced
padding, the year zero-padded to four digits, two digits, or ISO form. -/

/-- Day or month rendered without a leading zero. -/
def render2 (n : Nat) : List Char :=
  if n < 10 then [digitChar n] else [digitChar (n / 10), digitChar (n % 10)]

/-- The literal format `day.month.4-digit-year`, e.g. `14.2.2026`. -/
def renderDMY4 (y m d : Nat) : String :=
  String.mk (render2 d ++ ('.' :: (render2 m ++ ('.' :: pad4 y))))

/-- The literal format `day.month.2-digit-year`, e.g. `14.2.26`. -/
def renderDMY2 (y m d : Nat) : String :=
  String.mk (render2 d ++ ('.' :: (render2 m ++ ('.' :: pad2 (y % 100)))))

/-- The literal ISO format `year-month-day`, e.g. `2026-02-14`. -/
def renderISO (y m d : Nat) : String :=
  String.mk (pad4 y ++ ('-' :: (pad2 m ++ ('-' :: pad2 d))))

/-! ## Date validity lemmas -/

theorem daysInMonth_le (y m : Nat) : daysInMonth y m ≤ 31 := by
  unfold daysInMonth
  split_ifs <;> omega

theorem mkDate?_valid {y m d : Nat} (h : validYMD y m d = true) :
    mkDate? y m d = some ⟨y, m, d⟩ := by
  simp [mkDate?, h]

theorem validYMD_bounds {y m d : Nat} (h : validYMD y m d = true) :
    1 ≤ y ∧ y ≤ 9999 ∧ 1 ≤ m ∧ m ≤ 12 ∧ 1 ≤ d ∧ d ≤ 31 := by
  simp only [validYMD, decide_eq_true_eq] at h
  exact ⟨h.1, h.2.1, h.2.2.1, h.2.2.2.1, h.2.2.2.2.1,
    le_trans h.2.2.2.2.2 (daysInMonth_le y m)⟩

theorem mkDate?_none_day {y m d : Nat} (h : ¬(1 ≤ d ∧ d ≤ 31)) :
    mkDate? y m d = none := by
  have hv : validYMD y m d = false := by
    simp only [validYMD, decide_eq_false_iff_not]
    rintro ⟨-, -, -, -, h1, h2⟩
    exact h ⟨h1, le_trans h2 (daysInMonth_le y m)⟩
  simp [mkDate?, hv]

theorem mkDate?_none_month {y m d : Nat} (h : ¬(1 ≤ m ∧ m ≤ 12)) :
    mkDate? y m d = none := by
  have hv : validYMD y m d = false := by
    simp only [validYMD, decide_eq_false_iff_not]
    rintro ⟨-, -, h1, h2, -, -⟩
    exact h ⟨h1, h2⟩
  simp [mkDate?, hv]

/-! ## Digit and whitespace lemmas -/

theorem isDigitC_dot : isDigitC '.' = false := by decide

theorem digit_ne_dot {c : Char} (h : isDigitC c = true) : c ≠ '.' := by
  intro e
  rw [e] at h
  exact absurd h (by decide)

theorem digit_ne_dash {c : Char} (h : isDigitC c = true) : c ≠ '-' := by
  intro e
  rw [e] at h
  exact absurd h (by decide)

theorem isDigitC_digitChar {v : Nat} (h : v ≤ 9) : isDigitC (digitChar v) = true := by
  interval_cases v <;> decide

theorem digitVal_digitChar {v : Nat} (h : v ≤ 9) : digitVal (digitChar v) = v := by
  interval_cases v <;> decide

theorem isSpaceC_digitChar {v : Nat} (h : v ≤ 9) : isSpaceC (digitChar v) = false := by
  interval_cases v <;> decide

/-! ## Separator lemmas -/

theorem expectDot_dot {v : Nat} {rest : List Char} :
    expectDot (some (v, '.' :: rest)) = some (v, rest) := by
  simp [expectDot]

theorem expectDot_cons_ne {v : Nat} {c : Char} {rest : List Char} (h : c ≠ '.') :
    expectDot (some (v, c :: rest)) = none := by
  simp [expectDot, h]

theorem expectDash_dash {v : Nat} {rest : List Char} :
    expectDash (some (v, '-' :: rest)) = some (v, rest) := by
  simp [expectDash]

theorem expectDash_cons_ne {v : Nat} {c : Char} {rest : List Char} (h : c ≠ '-') :
    expectDash (some (v, c :: rest)) = none := by
  simp [expectDash, h]

theorem expectEnd_nil {v : Nat} : expectEnd (some (v, [])) = some v := rfl

theorem expectEnd_cons {v : Nat} {c : Char} {rest : List Char} :
    expectEnd (some (v, c :: rest)) = none := rfl

theorem expectDot_eq_some {o : Option (Nat × List Char)} {v : Nat} {rest : List Char}
    (h : expectDot o = some (v, rest)) : o = some (v, '.' :: rest) := by
  match o with
  | none => simp [expectDot] at h
  | some (v', []) => simp [expectDot] at h
  | some (v', c :: t) =>
    by_cases hc : c = '.'
    · subst hc
      rw [expectDot_dot] at h
      simp only [Option.some.injEq, Prod.mk.injEq] at h
      rw [h.1, h.2]
    · rw [expectDot_cons_ne hc] at h
      cases h

theorem expectEnd_eq_some {o : Option (Nat × List Char)} {v : Nat}
    (h : expectEnd o = some v) : o = some (v, []) := by
  match o with
  | none => simp [expectEnd] at h
  | some (v', []) =>
    rw [expectEnd_nil] at h
    simp only [Option.some.injEq] at h
    rw [h]
  | some (v', c :: t) =>
    rw [expectEnd_cons] at h
    cases h

/-! ## Directive lemmas: how the strptime matchers consume rendered blocks -/

theorem expectDot_matchD2_two {a1 a2 : Char} (h1 : isDigitC a1 = true)
    (h2 : isDigitC a2 = true) (tail : List Char) :
    expectDot (matchD2 (a1 :: a2 :: '.' :: tail)) =
      if 1 ≤ 10 * digitVal a1 + digitVal a2 ∧ 10 * digitVal a1 + digitVal a2 ≤ 31 then
        some (10 * digitVal a1 + digitVal a2, tail)
      else none := by
  simp only [matchD2]
  by_cases hr : 1 ≤ 10 * digitVal a1 + digitVal a2 ∧ 10 * digitVal a1 + digitVal a2 ≤ 31
  · rw [if_pos ⟨h1, h2, hr.1, hr.2⟩, if_pos hr]
    exact expectDot_dot
  · rw [if_neg (by tauto), if_neg hr]
    by_cases h1' : isDigitC a1 = true ∧ 1 ≤ digitVal a1
    · rw [if_pos h1']
      exact expectDot_cons_ne (digit_ne_dot h2)
    · rw [if_neg h1']
      rfl

theorem expectDot_matchD2_one {a1 : Char} (h1 : isDigitC a1 = true) (tail : List Char) :
    expectDot (matchD2 (a1 :: '.' :: tail)) =
      if 1 ≤ digitVal a1 then some (digitVal a1, tail) else none := by
  simp only [matchD2]
  rw [if_neg (by rintro ⟨-, hc, -, -⟩; exact absurd hc (by decide))]
  by_cases hr : 1 ≤ digitVal a1
  · rw [if_pos ⟨h1, hr⟩, if_pos hr]
    exact expectDot_dot
  · rw [if_neg (by tauto), if_neg hr]
    rfl

theorem expectDot_matchD2_digit3 {a1 a2 a3 : Char} (h2 : isDigitC a2 = true)
    (h3 : isDigitC a3 = true) (tail : List Char) :
    expectDot (matchD2 (a1 :: a2 :: a3 :: tail)) = none := by
  simp only [matchD2]
  by_cases hc : isDigitC a1 = true ∧ isDigitC a2 = true ∧
      1 ≤ 10 * digitVal a1 + digitVal a2 ∧ 10 * digitVal a1 + digitVal a2 ≤ 31
  · rw [if_pos hc]
    exact expectDot_cons_ne (digit_ne_dot h3)
  · rw [if_neg hc]
    by_cases hc2 : isDigitC a1 = true ∧ 1 ≤ digitVal a1
    · rw [if_pos hc2]
      exact expectDot_cons_ne (digit_ne_dot h2)
    · rw [if_neg hc2]
      rfl

theorem expectDot_matchM2_two {b1 b2 : Char} (h1 : isDigitC b1 = true)
    (h2 : isDigitC b2 = true) (tail : List Char) :
    expectDot (matchM2 (b1 :: b2 :: '.' :: tail)) =
      if 1 ≤ 10 * digitVal b1 + digitVal b2 ∧ 10 * digitVal b1 + digitVal b2 ≤ 12 then
        some (10 * digitVal b1 + digitVal b2, tail)
      else none := by
  simp only [matchM2]
  by_cases hr : 1 ≤ 10 * digitVal b1 + digitVal b2 ∧ 10 * digitVal b1 + digitVal b2 ≤ 12
  · rw [if_pos ⟨h1, h2, hr.1, hr.2⟩, if_pos hr]
    exact expectDot_dot
  · rw [if_neg (by tauto), if_neg hr]
    by_cases h1' : isDigitC b1 = true ∧ 1 ≤ digitVal b1
    · rw [if_pos h1']
      exact expectDot_cons_ne (digit_ne_dot h2)
    · rw [if_neg h1']
      rfl

theorem expectDot_matchM2_one {b1 : Char} (h1 : isDigitC b1 = true) (tail : List Char) :
    expectDot (matchM2 (b1 :: '.' :: tail)) =
      if 1 ≤ digitVal b1 then some (digitVal b1, tail) else none := by
  simp only [matchM2]
  rw [if_neg (by rintro ⟨-, hc, -, -⟩; exact absurd hc (by decide))]
  by_cases hr : 1 ≤ digitVal b1
  · rw [if_pos ⟨h1, hr⟩, if_pos hr]
    exact expectDot_dot
  · rw [if_neg (by tauto), if_neg hr]
    rfl

theorem expectDash_matchM2_two {b1 b2 : Char} (h1 : isDigitC b1 = true)
    (h2 : isDigitC b2 = true) (tail : List Char) :
    expectDash (matchM2 (b1 :: b2 :: '-' :: tail)) =
      if 1 ≤ 10 * digitVal b1 + digitVal b2 ∧ 10 * digitVal b1 + digitVal b2 ≤ 12 then
        some (10 * digitVal b1 + digitVal b2, tail)
      else none := by
  simp only [matchM2]
  by_cases hr : 1 ≤ 10 * digitVal b1 + digitVal b2 ∧ 10 * digitVal b1 + digitVal b2 ≤ 12
  · rw [if_pos ⟨h1, h2, hr.1, hr.2⟩, if_pos hr]
    exact expectDash_dash
  · rw [if_neg (by tauto), if_neg hr]
    by_cases h1' : isDigitC b1 = true ∧ 1 ≤ digitVal b1
    · rw [if_pos h1']
      exact expectDash_cons_ne (digit_ne_dash h2)
    · rw [if_neg h1']
      rfl

theorem expectEnd_matchD2_two {c1 c2 : Char} (h1 : isDigitC c1 = true)
    (h2 : isDigitC c2 = true) :
    expectEnd (matchD2 [c1, c2]) =
      if 1 ≤ 10 * digitVal c1 + digitVal c2 ∧ 10 * digitVal c1 + digitVal c2 ≤ 31 then
        some (10 * digitVal c1 + digitVal c2)
      else none := by
  simp only [matchD2]
  by_cases hr : 1 ≤ 10 * digitVal c1 + digitVal c2 ∧ 10 * digitVal c1 + digitVal c2 ≤ 31
  · rw [if_pos ⟨h1, h2, hr.1, hr.2⟩, if_pos hr]
    exact expectEnd_nil
  · rw [if_neg (by tauto), if_neg hr]
    by_cases h1' : isDigitC c1 = true ∧ 1 ≤ digitVal c1
    · rw [if_pos h1']
      exact expectEnd_cons
    · rw [if_neg h1']
      rfl

theorem grab4_digits {c1 c2 c3 c4 : Char} (h1 : isDigitC c1 = true)
    (h2 : isDigitC c2 = true) (h3 : isDigitC c3 = true) (h4 : isDigitC c4 = true)
    (rest : List Char) :
    grab4 (c1 :: c2 :: c3 :: c4 :: rest) =
      some (1000 * digitVal c1 + 100 * digitVal c2 + 10 * digitVal c3 + digitVal c4, rest) := by
  simp only [grab4]
  rw [if_pos ⟨h1, h2, h3, h4⟩]

theorem grab2exact_digits {c1 c2 : Char} (h1 : isDigitC c1 = true)
    (h2 : isDigitC c2 = true) (rest : List Char) :
    grab2exact (c1 :: c2 :: rest) = some (10 * digitVal c1 + digitVal c2, rest) := by
  simp only [grab2exact]
  rw [if_pos ⟨h1, h2⟩]

/-! ## Tail lemmas for the three formats on shaped inputs -/

theorem dmYTail_two_y4 {b1 b2 y1 y2 y3 y4 : Char} (hb1 : isDigitC b1 = true)
    (hb2 : isDigitC b2 = true) (hy1 : isDigitC y1 = true) (hy2 : isDigitC y2 = true)
    (hy3 : isDigitC y3 = true) (hy4 : isDigitC y4 = true) (d : Nat) :
    dmYTail d (b1 :: b2 :: '.' :: [y1, y2, y3, y4]) =
      if 1 ≤ 10 * digitVal b1 + digitVal b2 ∧ 10 * digitVal b1 + digitVal b2 ≤ 12 then
        mkDate? (1000 * digitVal y1 + 100 * digitVal y2 + 10 * digitVal y3 + digitVal y4)
          (10 * digitVal b1 + digitVal b2) d
      else none := by
  simp only [dmYTail, expectDot_matchM2_two hb1 hb2]
  by_cases hm : 1 ≤ 10 * digitVal b1 + digitVal b2 ∧ 10 * digitVal b1 + digitVal b2 ≤ 12
  · simp only [if_pos hm, grab4_digits hy1 hy2 hy3 hy4, expectEnd_nil]
  · simp only [if_neg hm]

theorem dmYTail_one_y4 {b1 y1 y2 y3 y4 : Char} (hb1 : isDigitC b1 = true)
    (hy1 : isDigitC y1 = true) (hy2 : isDigitC y2 = true)
    (hy3 : isDigitC y3 = true) (hy4 : isDigitC y4 = true) (d : Nat) :
    dmYTail d (b1 :: '.' :: [y1, y2, y3, y4]) =
      if 1 ≤ digitVal b1 then
        mkDate? (1000 * digitVal y1 + 100 * digitVal y2 + 10 * digitVal y3 + digitVal y4)
          (digitVal b1) d
      else none := by
  simp only [dmYTail, expectDot_matchM2_one hb1]
  by_cases hm : 1 ≤ digitVal b1
  · simp only [if_pos hm, grab4_digits hy1 hy2 hy3 hy4, expectEnd_nil]
  · simp only [if_neg hm]

theorem dmYTail_two_y2 {b1 b2 c1 c2 : Char} (hb1 : isDigitC b1 = true)
    (hb2 : isDigitC b2 = true) (d : Nat) :
    dmYTail d (b1 :: b2 :: '.' :: [c1, c2]) = none := by
  simp only [dmYTail, expectDot_matchM2_two hb1 hb2]
  by_cases hm : 1 ≤ 10 * digitVal b1 + digitVal b2 ∧ 10 * digitVal b1 + digitVal b2 ≤ 12
  · simp only [if_pos hm]
    rfl
  · simp only [if_neg hm]

theorem dmYTail_one_y2 {b1 c1 c2 : Char} (hb1 : isDigitC b1 = true) (d : Nat) :
    dmYTail d (b1 :: '.' :: [c1, c2]) = none := by
  simp only [dmYTail, expectDot_matchM2_one hb1]
  by_cases hm : 1 ≤ digitVal b1
  · simp only [if_pos hm]
    rfl
  · simp only [if_neg hm]

theorem dmyTail_two_y4 {b1 b2 y1 y2 y3 y4 : Char} (hb1 : isDigitC b1 = true)
    (hb2 : isDigitC b2 = true) (hy1 : isDigitC y1 = true) (hy2 : isDigitC y2 = true)
    (d : Nat) :
    dmyTail d (b1 :: b2 :: '.' :: [y1, y2, y3, y4]) = none := by
  simp only [dmyTail, expectDot_matchM2_two hb1 hb2]
  by_cases hm : 1 ≤ 10 * digitVal b1 + digitVal b2 ∧ 10 * digitVal b1 + digitVal b2 ≤ 12
  · simp only [if_pos hm, grab2exact_digits hy1 hy2, expectEnd_cons]
  · simp only [if_neg hm]

theorem dmyTail_one_y4 {b1 y1 y2 y3 y4 : Char} (hb1 : isDigitC b1 = true)
    (hy1 : isDigitC y1 = true) (hy2 : isDigitC y2 = true) (d : Nat) :
    dmyTail d (b1 :: '.' :: [y1, y2, y3, y4]) = none := by
  simp only [dmyTail, expectDot_matchM2_one hb1]
  by_cases hm : 1 ≤ digitVal b1
  · simp only [if_pos hm, grab2exact_digits hy1 hy2, expectEnd_cons]
  · simp only [if_neg hm]

theorem dmyTail_two_y2 {b1 b2 c1 c2 : Char} (hb1 : isDigitC b1 = true)
    (hb2 : isDigitC b2 = true) (hc1 : isDigitC c1 = true) (hc2 : isDigitC c2 = true)
    (d : Nat) :
    dmyTail d (b1 :: b2 :: '.' :: [c1, c2]) =
      if 1 ≤ 10 * digitVal b1 + digitVal b2 ∧ 10 * digitVal b1 + digitVal b2 ≤ 12 then
        mkDate?
          (if 10 * digitVal c1 + digitVal c2 ≤ 68 then 2000 + (10 * digitVal c1 + digitVal c2)
           else 1900 + (10 * digitVal c1 + digitVal c2))
          (10 * digitVal b1 + digitVal b2) d
      else none := by
  simp only [dmyTail, expectDot_matchM2_two hb1 hb2]
  by_cases hm : 1 ≤ 10 * digitVal b1 + digitVal b2 ∧ 10 * digitVal b1 + digitVal b2 ≤ 12
  · simp only [if_pos hm, grab2exact_digits hc1 hc2, expectEnd_nil]
  · simp only [if_neg hm]

theorem dmyTail_one_y2 {b1 c1 c2 : Char} (hb1 : isDigitC b1 = true)
    (hc1 : isDigitC c1 = true) (hc2 : isDigitC c2 = true) (d : Nat) :
    dmyTail d (b1 :: '.' :: [c1, c2]) =
      if 1 ≤ digitVal b1 then
        mkDate?
          (if 10 * digitVal c1 + digitVal c2 ≤ 68 then 2000 + (10 * digitVal c1 + digitVal c2)
           else 1900 + (10 * digitVal c1 + digitVal c2))
          (digitVal b1) d
      else none := by
  simp only [dmyTail, expectDot_matchM2_one hb1]
  by_cases hm : 1 ≤ digitVal b1
  · simp only [if_pos hm, grab2exact_digits hc1 hc2, expectEnd_nil]
  · simp only [if_neg hm]

theorem strptime_Ymd_dot2 {a1 a2 : Char} (tail : List Char) :
    strptime_Ymd (a1 :: a2 :: '.' :: tail) = none := by
  cases tail with
  | nil => rfl
  | cons c t => simp [strptime_Ymd, grab4, isDigitC_dot, expectDash]

theorem strptime_Ymd_dot1 {a1 : Char} (tail : List Char) :
    strptime_Ymd (a1 :: '.' :: tail) = none := by
  match tail with
  | [] => rfl
  | [c] => rfl
  | c :: c' :: t => simp [strptime_Ymd, grab4, isDigitC_dot, expectDash]

/-! ## Structural inversion of the fallback fullmatch -/

theorem grab2_dot_inv {cs cs1 : List Char} {d : Nat}
    (h : grab2 cs = some (d, '.' :: cs1)) :
    (∃ a1 a2, cs = a1 :: a2 :: '.' :: cs1 ∧ isDigitC a1 = true ∧ isDigitC a2 = true ∧
      d = 10 * digitVal a1 + digitVal a2) ∨
    (∃ a1, cs = a1 :: '.' :: cs1 ∧ isDigitC a1 = true ∧ d = digitVal a1) := by
  match cs with
  | [] => simp [grab2] at h
  | [c1] =>
    by_cases h1 : isDigitC c1 = true
    · simp [grab2, h1] at h
    · simp [grab2, h1] at h
  | c1 :: c2 :: rest =>
    by_cases h1 : isDigitC c1 = true
    · by_cases h2 : isDigitC c2 = true
      · simp [grab2, h1, h2] at h
        exact Or.inl ⟨c1, c2, by rw [h.2], h1, h2, h.1.symm⟩
      · simp [grab2, h1, h2] at h
        exact Or.inr ⟨c1, by rw [h.2.1, h.2.2], h1, h.1.symm⟩
    · simp [grab2, h1] at h

theorem grab4_nil_inv {cs : List Char} {y : Nat} (h : grab4 cs = some (y, [])) :
    ∃ y1 y2 y3 y4, cs = [y1, y2, y3, y4] ∧ isDigitC y1 = true ∧ isDigitC y2 = true ∧
      isDigitC y3 = true ∧ isDigitC y4 = true ∧
      y = 1000 * digitVal y1 + 100 * digitVal y2 + 10 * digitVal y3 + digitVal y4 := by
  match cs with
  | [] => simp [grab4] at h
  | [_] => simp [grab4] at h
  | [_, _] => simp [grab4] at h
  | [_, _, _] => simp [grab4] at h
  | c1 :: c2 :: c3 :: c4 :: rest =>
    by_cases hc : isDigitC c1 = true ∧ isDigitC c2 = true ∧ isDigitC c3 = true ∧
        isDigitC c4 = true
    · rw [grab4_digits hc.1 hc.2.1 hc.2.2.1 hc.2.2.2] at h
      simp only [Option.some.injEq, Prod.mk.injEq] at h
      exact ⟨c1, c2, c3, c4, by rw [h.2], hc.1, hc.2.1, hc.2.2.1, hc.2.2.2, h.1.symm⟩
    · simp [grab4, hc] at h

theorem fullmatchDMY_inv {cs : List Char} {d m y : Nat}
    (h : fullmatchDMY cs = some (d, m, y)) :
    ∃ cs1 cs2, grab2 cs = some (d, '.' :: cs1) ∧ grab2 cs1 = some (m, '.' :: cs2) ∧
      grab4 cs2 = some (y, []) := by
  unfold fullmatchDMY at h
  split at h
  · rename_i d1 cs1 ho1
    split at h
    · rename_i m1 cs2 ho2
      split at h
      · rename_i y1 ho3
        simp only [Option.some.injEq, Prod.mk.injEq] at h
        obtain ⟨rfl, rfl, rfl⟩ := h
        exact ⟨cs1, cs2, expectDot_eq_some ho1, expectDot_eq_some ho2,
          expectEnd_eq_some ho3⟩
      · simp at h
    · simp at h
  · simp at h

/-! ## Trim and rendering lemmas -/

theorem dropWhile_isSpaceC_eq_self {l : List Char} (h : ∀ c ∈ l, isSpaceC c = false) :
    l.dropWhile isSpaceC = l := by
  cases l with
  | nil => rfl
  | cons a t =>
    rw [List.dropWhile_cons, h a (List.mem_cons_self a t)]
    simp

theorem trimL_eq_self {l : List Char} (h : ∀ c ∈ l, isSpaceC c = false) :
    trimL l = l := by
  unfold trimL
  rw [dropWhile_isSpaceC_eq_self h,
    dropWhile_isSpaceC_eq_self (fun c hc => h c (List.mem_reverse.mp hc)),
    List.reverse_reverse]

theorem mem_render2 {c : Char} {n : Nat} (h : c ∈ render2 n) (hn : n ≤ 99) :
    ∃ v, v ≤ 9 ∧ c = digitChar v := by
  unfold render2 at h
  by_cases h10 : n < 10
  · rw [if_pos h10] at h
    simp at h
    exact ⟨n, by omega, h⟩
  · rw [if_neg h10] at h
    simp at h
    rcases h with h | h
    · exact ⟨n / 10, by omega, h⟩
    · exact ⟨n % 10, by omega, h⟩

theorem mem_pad2 {c : Char} {n : Nat} (h : c ∈ pad2 n) (hn : n ≤ 99) :
    ∃ v, v ≤ 9 ∧ c = digitChar v := by
  simp [pad2] at h
  rcases h with h | h
  · exact ⟨n / 10, by omega, h⟩
  · exact ⟨n % 10, by omega, h⟩

theorem mem_pad4 {c : Char} {n : Nat} (h : c ∈ pad4 n) (hn : n ≤ 9999) :
    ∃ v, v ≤ 9 ∧ c = digitChar v := by
  simp [pad4] at h
  rcases h with h | h | h | h
  · exact ⟨n / 1000, by omega, h⟩
  · exact ⟨n / 100 % 10, by omega, h⟩
  · exact ⟨n / 10 % 10, by omega, h⟩
  · exact ⟨n % 10, by omega, h⟩

theorem grab4_pad4 {y : Nat} (hy : y ≤ 9999) (rest : List Char) :
    grab4 (pad4 y ++ rest) = some (y, rest) := by
  have h1 : y / 1000 ≤ 9 := by omega
  have h2 : y / 100 % 10 ≤ 9 := by omega
  have h3 : y / 10 % 10 ≤ 9 := by omega
  have h4 : y % 10 ≤ 9 := by omega
  simp only [pad4, List.cons_append, List.nil_append]
  rw [grab4_digits (isDigitC_digitChar h1) (isDigitC_digitChar h2)
    (isDigitC_digitChar h3) (isDigitC_digitChar h4)]
  rw [digitVal_digitChar h1, digitVal_digitChar h2, digitVal_digitChar h3,
    digitVal_digitChar h4]
  have : 1000 * (y / 1000) + 100 * (y / 100 % 10) + 10 * (y / 10 % 10) + y % 10 = y := by
    omega
  rw [this]

/-- The general chain lemma: a value of `parseDateCore` computed from the
outcomes of its four stages. -/
theorem parseDateCore_of_stages {cs : List Char} {o : Option Date}
    (hA : strptime_dmY cs = none) (hB : strptime_dmy cs = none)
    (hC : strptime_Ymd cs = none) {d m y : Nat}
    (hF : fullmatchDMY cs = some (d, m, y)) (hv : mkDate? y m d = o) :
    parseDateCore cs = o := by
  simp [parseDateCore, hA, hB, hC, hF, hv]

/-! ## Render-consumption lemmas -/

theorem expectDot_matchD2_render2 {d : Nat} (h1 : 1 ≤ d) (h2 : d ≤ 31) (tail : List Char) :
    expectDot (matchD2 (render2 d ++ '.' :: tail)) = some (d, tail) := by
  by_cases h10 : d < 10
  · have ha : d ≤ 9 := by omega
    simp only [render2, if_pos h10, List.cons_append, List.nil_append]
    rw [expectDot_matchD2_one (isDigitC_digitChar ha), digitVal_digitChar ha, if_pos h1]
  · have ha : d / 10 ≤ 9 := by omega
    have hb : d % 10 ≤ 9 := by omega
    simp only [render2, if_neg h10, List.cons_append, List.nil_append]
    rw [expectDot_matchD2_two (isDigitC_digitChar ha) (isDigitC_digitChar hb),
      digitVal_digitChar ha, digitVal_digitChar hb]
    have he : 10 * (d / 10) + d % 10 = d := by omega
    rw [he, if_pos ⟨h1, h2⟩]

theorem expectDot_matchM2_render2 {m : Nat} (h1 : 1 ≤ m) (h2 : m ≤ 12) (tail : List Char) :
    expectDot (matchM2 (render2 m ++ '.' :: tail)) = some (m, tail) := by
  by_cases h10 : m < 10
  · have ha : m ≤ 9 := by omega
    simp only [render2, if_pos h10, List.cons_append, List.nil_append]
    rw [expectDot_matchM2_one (isDigitC_digitChar ha), digitVal_digitChar ha, if_pos h1]
  · have ha : m / 10 ≤ 9 := by omega
    have hb : m % 10 ≤ 9 := by omega
    simp only [render2, if_neg h10, List.cons_append, List.nil_append]
    rw [expectDot_matchM2_two (isDigitC_digitChar ha) (isDigitC_digitChar hb),
      digitVal_digitChar ha, digitVal_digitChar hb]
    have he : 10 * (m / 10) + m % 10 = m := by omega
    rw [he, if_pos ⟨h1, h2⟩]

/-! ## Claims -/

/-- C1: for every text with no closing-signal phrase in which the Date
Finder finds a date (the operational reading of "text containing a date"),
the Status Classifier returns `closed` when that date is strictly before
the current date, and `open` when it is equal to or after the current date. -/
theorem c1_date_decides_status (today : Date) (text ds : String) (d : Date)
    (hsig : hasClosedSignal text = false)
    (hfind : find_date_in_text text = some d) :
    (dateLt d today = true → detect_status today text ds = "closed") ∧
    (dateLt d today = false → detect_status today text ds = "open") := by
  constructor <;> intro h <;> simp [detect_status, hsig, hfind, h]

/-- Witness for C1, on both sides of the comparison: a past date classifies
as `closed`, a future date as `open`. -/
theorem c1_witness :
    (hasClosedSignal "Haku 1.1.2020 asti" = false ∧
      find_date_in_text "Haku 1.1.2020 asti" = some ⟨2020, 1, 1⟩ ∧
      dateLt ⟨2020, 1, 1⟩ ⟨2026, 1, 1⟩ = true ∧
      detect_status ⟨2026, 1, 1⟩ "Haku 1.1.2020 asti" "" = "closed") ∧
    (hasClosedSignal "Haku 1.1.2030 asti" = false ∧
      find_date_in_text "Haku 1.1.2030 asti" = some ⟨2030, 1, 1⟩ ∧
      dateLt ⟨2030, 1, 1⟩ ⟨2026, 1, 1⟩ = false ∧
      detect_status ⟨2026, 1, 1⟩ "Haku 1.1.2030 asti" "" = "open") :=
  ⟨⟨by decide, by decide, by decide,
    (c1_date_decides_status ⟨2026, 1, 1⟩ "Haku 1.1.2020 asti" "" ⟨2020, 1, 1⟩
      (by decide) (by decide)).1 (by decide)⟩,
   ⟨by decide, by decide, by decide,
    (c1_date_decides_status ⟨2026, 1, 1⟩ "Haku 1.1.2030 asti" "" ⟨2030, 1, 1⟩
      (by decide) (by decide)).2 (by decide)⟩⟩

/-- C5: any text containing the substring "closed" case-insensitively is
classified `closed`, regardless of any other content including future dates
and the explicit date string. -/
theorem c5_closed_signal_dominates (today : Date) (text ds : String)
    (h : containsSub (toLowerL text.data) "closed".data = true) :
    detect_status today text ds = "closed" := by
  have hs : hasClosedSignal text = true := by
    simp [hasClosedSignal, CLOSED_SIGNALS, h]
  simp [detect_status, hs]

/-- Witness for C5: the word CLOSED dominates even a future date in the
text and a future explicit date string. -/
theorem c5_witness :
    containsSub (toLowerL "Rahoitus CLOSED 1.1.2030".data) "closed".data = true ∧
    detect_status ⟨2026, 1, 1⟩ "Rahoitus CLOSED 1.1.2030" "1.1.2030" = "closed" :=
  ⟨by decide, c5_closed_signal_dominates ⟨2026, 1, 1⟩ _ _ (by decide)⟩

/-- C7: with no closing-signal phrase, no date found in the text and an
explicit date string that does not parse, classification is `unknown`. -/
theorem c7_unknown_default (today : Date) (text ds : String)
    (h1 : hasClosedSignal text = false)
    (h2 : find_date_in_text text = none)
    (h3 : parse_date_string ds = none) :
    detect_status today text ds = "unknown" := by
  simp [detect_status, h1, h2, h3]

/-- Witness for C7. -/
theorem c7_witness :
    hasClosedSignal "Funding info page" = false ∧
    find_date_in_text "Funding info page" = none ∧
    parse_date_string "soon" = none ∧
    detect_status ⟨2026, 1, 1⟩ "Funding info page" "soon" = "unknown" :=
  ⟨by decide, by decide, by decide,
   c7_unknown_default ⟨2026, 1, 1⟩ _ _ (by decide) (by decide) (by decide)⟩

/-- C10: the token `2026-2-14` parses when supplied directly as the explicit
date string but is never found by the Date Finder inside free text (the ISO
search pattern requires two-digit month and day), so classification of a
text containing only that token depends on whether the token is also
supplied as the explicit date string. -/
theorem c10_finder_parser_asymmetry :
    parse_date_string "2026-2-14" = some ⟨2026, 2, 14⟩ ∧
    find_date_in_text "Deadline: 2026-2-14" = none ∧
    detect_status ⟨2025, 1, 1⟩ "Deadline: 2026-2-14" "" = "unknown" ∧
    detect_status ⟨2025, 1, 1⟩ "Deadline: 2026-2-14" "2026-2-14" = "open" := by
  decide

/-- Counterexample to C2 as stated: in `99.99.2026 2026-02-14` the first
`day.month.year` pattern match is `99.99.2026`, whose parse fails, yet the
Date Finder does not return that failed parse result (`none`): it falls
through to the ISO pattern and returns `2026-02-14`. -/
theorem c2_counterexample :
    searchA "99.99.2026 2026-02-14".data = some "99.99.2026".data ∧
    parse_date_string "99.99.2026" = none ∧
    find_date_in_text "99.99.2026 2026-02-14" = some ⟨2026, 2, 14⟩ := by
  decide

/-- C2 amended: when the first `day.month.year` pattern match fails to
parse, the Date Finder falls through to the ISO pattern; the result is then
the parse of the first ISO match (or nothing when the ISO pattern matches
nowhere).  First successful parse, not first pattern match, governs. -/
theorem c2_fallthrough (text : String) (m : List Char)
    (hA : searchA text.data = some m) (hp : parseDateL m = none) :
    (searchB text.data = none → find_date_in_text text = none) ∧
    (∀ m2, searchB text.data = some m2 → find_date_in_text text = parseDateL m2) := by
  constructor
  · intro hB; simp [find_date_in_text, hA, hp, hB]
  · intro m2 hB; simp [find_date_in_text, hA, hp, hB]

/-- Witness for the amended C2. -/
theorem c2_witness :
    searchA "99.99.2026 2026-02-14".data = some "99.99.2026".data ∧
    parseDateL "99.99.2026".data = none ∧
    searchB "99.99.2026 2026-02-14".data = some "2026-02-14".data ∧
    find_date_in_text "99.99.2026 2026-02-14" = parseDateL "2026-02-14".data :=
  ⟨by decide, by decide, by decide,
   (c2_fallthrough "99.99.2026 2026-02-14" "99.99.2026".data
     (by decide) (by decide)).2 "2026-02-14".data (by decide)⟩

/-- Counterexample to C3 as stated: a feed with one raw entry whose text
carries a closing signal yields an empty filtered row list, and the
Collector then does invoke the HTML extractor for that source, so the
source contributes the HTML extractor's items rather than zero items. -/
theorem c3_counterexample :
    ([⟨some "Closed call", none, none, none⟩] : List Entry) ≠ [] ∧
    parse_rss ⟨2026, 10, 12⟩ ⟨2026, 10, 12⟩ "http://a"
      [⟨some "Closed call", none, none, none⟩] = [] ∧
    collect_rows ⟨2026, 10, 12⟩ ⟨2026, 10, 12⟩
      [⟨"http://a", [⟨some "Closed call", none, none, none⟩],
        some ⟨some "Welcome", some "http://b", "Tervetuloa"⟩⟩] ≠ [] := by
  decide

/-- C3 amended: feed usability is decided by the count of retained rows,
not raw entries: whenever `parse_rss` returns no rows — also when the feed
had raw entries that were all filtered out as closed — the Collector falls
back to the HTML extractor for that source. -/
theorem c3_fallback_on_empty (today utcToday : Date) (url : String)
    (entries : List Entry) (page : Option Page) (rest : List Source)
    (h : parse_rss today utcToday url entries = []) :
    collect_rows today utcToday (⟨url, entries, page⟩ :: rest) =
      parse_html today utcToday url page ++ collect_rows today utcToday rest := by
  simp [collect_rows, h]

/-- Witness for the amended C3: an all-closed feed falls back to HTML. -/
theorem c3_witness :
    parse_rss ⟨2026, 10, 12⟩ ⟨2026, 10, 12⟩ "http://a"
      [⟨some "Closed call", none, none, none⟩] = [] ∧
    collect_rows ⟨2026, 10, 12⟩ ⟨2026, 10, 12⟩
      [⟨"http://a", [⟨some "Closed call", none, none, none⟩],
        some ⟨some "Welcome", some "http://b", "Tervetuloa"⟩⟩] =
      parse_html ⟨2026, 10, 12⟩ ⟨2026, 10, 12⟩ "http://a"
        (some ⟨some "Welcome", some "http://b", "Tervetuloa"⟩) ++
      collect_rows ⟨2026, 10, 12⟩ ⟨2026, 10, 12⟩ [] :=
  ⟨by decide,
   c3_fallback_on_empty ⟨2026, 10, 12⟩ ⟨2026, 10, 12⟩ "http://a"
     [⟨some "Closed call", none, none, none⟩]
     (some ⟨some "Welcome", some "http://b", "Tervetuloa"⟩) [] (by decide)⟩

/-! ## Output filtering: helper lemmas -/

/-- `is_open` holds exactly when the detected status is `open` or `unknown`. -/
theorem is_open_iff (today : Date) (text ds : String) :
    is_open today text ds = true ↔
      detect_status today text ds = "open" ∨ detect_status today text ds = "unknown" := by
  simp [is_open]

/-- The `parse_rss` loop is a filter-and-map over the considered entries. -/
theorem rssLoop_eq_filterMap (today utcToday : Date) (url : String) (l : List Entry) :
    rssLoop today utcToday url l = l.filterMap (fun e =>
      if is_open today (combinedText e) (e.published.getD "") = true then
        some (rssRow today utcToday url e) else none) := by
  induction l with
  | nil => rfl
  | cons e es ih =>
    by_cases h : is_open today (combinedText e) (e.published.getD "") = true
    · simp [rssLoop, List.filterMap_cons, h, ih]
    · simp [rssLoop, List.filterMap_cons, h, ih]

/-- Every row the `parse_rss` loop emits has status `open` or `unknown`. -/
theorem mem_rssLoop_status (today utcToday : Date) (url : String) (l : List Entry)
    (r : Row) (hr : r ∈ rssLoop today utcToday url l) :
    r.status = "open" ∨ r.status = "unknown" := by
  induction l with
  | nil => simp [rssLoop] at hr
  | cons e es ih =>
    by_cases h : is_open today (combinedText e) (e.published.getD "") = true
    · rw [rssLoop, if_pos h] at hr
      rcases List.mem_cons.mp hr with heq | htail
      · subst heq
        simpa [rssRow] using (is_open_iff today (combinedText e) (e.published.getD "")).mp h
      · exact ih htail
    · rw [rssLoop, if_neg h] at hr
      exact ih hr

/-- Every row `parse_rss` emits has status `open` or `unknown`. -/
theorem mem_parse_rss_status (today utcToday : Date) (url : String) (entries : List Entry)
    (r : Row) (hr : r ∈ parse_rss today utcToday url entries) :
    r.status = "open" ∨ r.status = "unknown" := by
  rw [parse_rss] at hr
  by_cases he : entries.isEmpty = true
  · rw [if_pos he] at hr; simp at hr
  · rw [if_neg he] at hr
    exact mem_rssLoop_status today utcToday url (entries.take 5) r hr

/-- Every row `parse_html` emits has status `open` or `unknown`. -/
theorem mem_parse_html_status (today utcToday : Date) (url : String) (page : Option Page)
    (r : Row) (hr : r ∈ parse_html today utcToday url page) :
    r.status = "open" ∨ r.status = "unknown" := by
  match page with
  | none => simp [parse_html] at hr
  | some pg =>
    rw [parse_html] at hr
    by_cases h : is_open today pg.text "" = true
    · rw [if_pos h] at hr
      rcases List.mem_singleton.mp hr with heq
      subst heq
      simpa [htmlRow] using (is_open_iff today pg.text "").mp h
    · rw [if_neg h] at hr; simp at hr

/-- Every row the Collector aggregates has status `open` or `unknown`. -/
theorem mem_collect_rows_status (today utcToday : Date) (sources : List Source)
    (r : Row) (hr : r ∈ collect_rows today utcToday sources) :
    r.status = "open" ∨ r.status = "unknown" := by
  induction sources with
  | nil => simp [collect_rows] at hr
  | cons s rest ih =>
    rw [collect_rows] at hr
    rcases List.mem_append.mp hr with hl | hrr
    · by_cases he : (parse_rss today utcToday s.url s.entries).isEmpty = true
      · rw [if_pos he] at hl
        exact mem_parse_html_status today utcToday s.url s.page r hl
      · rw [if_neg he] at hl
        exact mem_parse_rss_status today utcToday s.url s.entries r hl
    · exact ih hrr

/-! ## Claims on output filtering -/

/-- C6: a row reaches the run's output collection only with status `open`
or `unknown`; neither extractor ever emits a `closed` row; and conversely
every considered item whose text passes the open/unknown check is emitted
by its extractor. -/
theorem c6_emission_iff_open_or_unknown (today utcToday : Date) :
    (∀ sources r, r ∈ collect_rows today utcToday sources →
        r.status = "open" ∨ r.status = "unknown") ∧
    (∀ url entries r, r ∈ parse_rss today utcToday url entries → ¬r.status = "closed") ∧
    (∀ url page r, r ∈ parse_html today utcToday url page → ¬r.status = "closed") ∧
    (∀ url entries (e : Entry), e ∈ entries.take 5 →
        is_open today (combinedText e) (e.published.getD "") = true →
        rssRow today utcToday url e ∈ parse_rss today utcToday url entries) ∧
    (∀ url (pg : Page), is_open today pg.text "" = true →
        htmlRow today utcToday url pg ∈ parse_html today utcToday url (some pg)) := by
  refine ⟨mem_collect_rows_status today utcToday, ?_, ?_, ?_, ?_⟩
  · intro url entries r hr
    rcases mem_parse_rss_status today utcToday url entries r hr with h | h <;>
      simp [h]
  · intro url page r hr
    rcases mem_parse_html_status today utcToday url page r hr with h | h <;>
      simp [h]
  · intro url entries e he hopen
    have hne : entries.isEmpty = false := by
      cases entries with
      | nil => simp at he
      | cons a l => rfl
    rw [parse_rss, hne]
    simp only [Bool.false_eq_true, if_false, rssLoop_eq_filterMap]
    exact List.mem_filterMap.mpr ⟨e, he, by rw [if_pos hopen]⟩
  · intro url pg hopen
    rw [parse_html, if_pos hopen]
    exact List.mem_singleton.mpr rfl

/-- Witness for C6: an open feed entry's row is in the collected output and
has status `open` or `unknown`. -/
theorem c6_witness :
    (rssRow ⟨2026, 10, 12⟩ ⟨2026, 10, 12⟩ "http://a"
        ⟨some "Avoin haku 1.1.2030", none, none, none⟩ ∈
      collect_rows ⟨2026, 10, 12⟩ ⟨2026, 10, 12⟩
        [⟨"http://a", [⟨some "Avoin haku 1.1.2030", none, none, none⟩], none⟩]) ∧
    ((rssRow ⟨2026, 10, 12⟩ ⟨2026, 10, 12⟩ "http://a"
        ⟨some "Avoin haku 1.1.2030", none, none, none⟩).status = "open" ∨
     (rssRow ⟨2026, 10, 12⟩ ⟨2026, 10, 12⟩ "http://a"
        ⟨some "Avoin haku 1.1.2030", none, none, none⟩).status = "unknown") ∧
    rssRow ⟨2026, 10, 12⟩ ⟨2026, 10, 12⟩ "http://a"
        ⟨some "Avoin haku 1.1.2030", none, none, none⟩ ∈
      parse_rss ⟨2026, 10, 12⟩ ⟨2026, 10, 12⟩ "http://a"
        [⟨some "Avoin haku 1.1.2030", none, none, none⟩] :=
  ⟨by decide,
   (c6_emission_iff_open_or_unknown ⟨2026, 10, 12⟩ ⟨2026, 10, 12⟩).1
     [⟨"http://a", [⟨some "Avoin haku 1.1.2030", none, none, none⟩], none⟩]
     (rssRow ⟨2026, 10, 12⟩ ⟨2026, 10, 12⟩ "http://a"
       ⟨some "Avoin haku 1.1.2030", none, none, none⟩) (by decide),
   (c6_emission_iff_open_or_unknown ⟨2026, 10, 12⟩ ⟨2026, 10, 12⟩).2.2.2.1
     "http://a" [⟨some "Avoin haku 1.1.2030", none, none, none⟩]
     ⟨some "Avoin haku 1.1.2030", none, none, none⟩ (by decide) (by decide)⟩

/-- C8: for a feed with entries, the extractor's output is exactly the
retained (open-or-unknown) subset of the first five entries in entry order
— the cap is applied before filtering — and therefore never exceeds five
rows. -/
theorem c8_cap_then_filter (today utcToday : Date) (url : String) (entries : List Entry)
    (h : entries ≠ []) :
    parse_rss today utcToday url entries =
      (entries.take 5).filterMap (fun e =>
        if is_open today (combinedText e) (e.published.getD "") = true then
          some (rssRow today utcToday url e) else none) ∧
    (parse_rss today utcToday url entries).length ≤ 5 := by
  have he : entries.isEmpty = false := by
    cases entries with
    | nil => exact absurd rfl h
    | cons a l => rfl
  have heq : parse_rss today utcToday url entries =
      (entries.take 5).filterMap (fun e =>
        if is_open today (combinedText e) (e.published.getD "") = true then
          some (rssRow today utcToday url e) else none) := by
    rw [parse_rss, he]
    simp only [Bool.false_eq_true, if_false]
    exact rssLoop_eq_filterMap today utcToday url (entries.take 5)
  refine ⟨heq, ?_⟩
  rw [heq]
  calc ((entries.take 5).filterMap _).length
      ≤ (entries.take 5).length := List.length_filterMap_le _ _
    _ ≤ 5 := by rw [List.length_take]; omega

/-- Witness for C8: six entries, the first closed; exactly the non-closed
subset of the first five survives, and the sixth never appears. -/
theorem c8_witness :
    (parse_rss ⟨2026, 10, 12⟩ ⟨2026, 10, 12⟩ "http://a"
        [⟨some "closed", none, none, none⟩, ⟨some "Info A", none, none, none⟩,
         ⟨some "Info B", none, none, none⟩, ⟨some "Info C", none, none, none⟩,
         ⟨some "Info D", none, none, none⟩, ⟨some "Info E", none, none, none⟩] =
      (([⟨some "closed", none, none, none⟩, ⟨some "Info A", none, none, none⟩,
         ⟨some "Info B", none, none, none⟩, ⟨some "Info C", none, none, none⟩,
         ⟨some "Info D", none, none, none⟩, ⟨some "Info E", none, none, none⟩] :
           List Entry).take 5).filterMap (fun e =>
        if is_open ⟨2026, 10, 12⟩ (combinedText e) (e.published.getD "") = true then
          some (rssRow ⟨2026, 10, 12⟩ ⟨2026, 10, 12⟩ "http://a" e) else none) ∧
     (parse_rss ⟨2026, 10, 12⟩ ⟨2026, 10, 12⟩ "http://a"
        [⟨some "closed", none, none, none⟩, ⟨some "Info A", none, none, none⟩,
         ⟨some "Info B", none, none, none⟩, ⟨some "Info C", none, none, none⟩,
         ⟨some "Info D", none, none, none⟩, ⟨some "Info E", none, none, none⟩]).length ≤ 5) ∧
    (parse_rss ⟨2026, 10, 12⟩ ⟨2026, 10, 12⟩ "http://a"
        [⟨some "closed", none, none, none⟩, ⟨some "Info A", none, none, none⟩,
         ⟨some "Info B", none, none, none⟩, ⟨some "Info C", none, none, none⟩,
         ⟨some "Info D", none, none, none⟩, ⟨some "Info E", none, none, none⟩]).length = 4 :=
  ⟨c8_cap_then_filter ⟨2026, 10, 12⟩ ⟨2026, 10, 12⟩ "http://a" _ (by decide), by decide⟩

/-- Counterexample to C4 as stated: the calendar date 2069-01-01 rendered
in the `day.month.2-digit-year` format is `1.1.69`, which the Date Parser
reads back as 1969-01-01 via strptime's two-digit-year pivot, not as the
original date. -/
theorem c4_counterexample :
    renderDMY2 2069 1 1 = "1.1.69" ∧
    parse_date_string (renderDMY2 2069 1 1) = some ⟨1969, 1, 1⟩ ∧
    parse_date_string (renderDMY2 2069 1 1) ≠ some ⟨2069, 1, 1⟩ := by
  decide

/-- C4 amended: parsing a rendered date literal returns the original
calendar date for the `day.month.4-digit-year` and ISO formats on every
valid date, and for the `day.month.2-digit-year` format exactly on the
years 1969–2068 reachable by strptime's two-digit-year pivot. -/
theorem c4_roundtrip (y m d : Nat) (h : validYMD y m d = true) :
    parse_date_string (renderDMY4 y m d) = some ⟨y, m, d⟩ ∧
    parse_date_string (renderISO y m d) = some ⟨y, m, d⟩ ∧
    (1969 ≤ y → y ≤ 2068 → parse_date_string (renderDMY2 y m d) = some ⟨y, m, d⟩) := by
  obtain ⟨hy1, hy2, hm1, hm2, hd1, hd2⟩ := validYMD_bounds h
  refine ⟨?_, ?_, ?_⟩
  · -- day.month.4-digit-year
    have htrim : trimL (render2 d ++ ('.' :: (render2 m ++ ('.' :: pad4 y)))) =
        render2 d ++ ('.' :: (render2 m ++ ('.' :: pad4 y))) := by
      apply trimL_eq_self
      intro c hc
      simp only [List.mem_append, List.mem_cons] at hc
      rcases hc with hc | hc | hc | hc | hc
      · obtain ⟨v, hv, rfl⟩ := mem_render2 hc (by omega)
        exact isSpaceC_digitChar hv
      · subst hc; decide
      · obtain ⟨v, hv, rfl⟩ := mem_render2 hc (by omega)
        exact isSpaceC_digitChar hv
      · subst hc; decide
      · obtain ⟨v, hv, rfl⟩ := mem_pad4 hc hy2
        exact isSpaceC_digitChar hv
    have hg : grab4 (pad4 y) = some (y, []) := by
      simpa using grab4_pad4 hy2 ([] : List Char)
    have hA : strptime_dmY (render2 d ++ ('.' :: (render2 m ++ ('.' :: pad4 y)))) =
        some ⟨y, m, d⟩ := by
      simp only [strptime_dmY, expectDot_matchD2_render2 hd1 hd2, dmYTail,
        expectDot_matchM2_render2 hm1 hm2, hg, expectEnd_nil, mkDate?_valid h]
    show parseDateCore (trimL (render2 d ++ ('.' :: (render2 m ++ ('.' :: pad4 y))))) =
      some ⟨y, m, d⟩
    rw [htrim]
    simp only [parseDateCore, hA]
  · -- ISO year-month-day
    have hc2 : isDigitC (digitChar (y / 100 % 10)) = true := isDigitC_digitChar (by omega)
    have hc3 : isDigitC (digitChar (y / 10 % 10)) = true := isDigitC_digitChar (by omega)
    have htrim : trimL (pad4 y ++ ('-' :: (pad2 m ++ ('-' :: pad2 d)))) =
        pad4 y ++ ('-' :: (pad2 m ++ ('-' :: pad2 d))) := by
      apply trimL_eq_self
      intro c hc
      simp only [List.mem_append, List.mem_cons] at hc
      rcases hc with hc | hc | hc | hc | hc
      · obtain ⟨v, hv, rfl⟩ := mem_pad4 hc hy2
        exact isSpaceC_digitChar hv
      · subst hc; decide
      · obtain ⟨v, hv, rfl⟩ := mem_pad2 hc (by omega)
        exact isSpaceC_digitChar hv
      · subst hc; decide
      · obtain ⟨v, hv, rfl⟩ := mem_pad2 hc (by omega)
        exact isSpaceC_digitChar hv
    have hA : strptime_dmY (pad4 y ++ ('-' :: (pad2 m ++ ('-' :: pad2 d)))) = none := by
      simp only [pad4, List.cons_append, List.nil_append]
      simp only [strptime_dmY, expectDot_matchD2_digit3 hc2 hc3]
    have hB : strptime_dmy (pad4 y ++ ('-' :: (pad2 m ++ ('-' :: pad2 d)))) = none := by
      simp only [pad4, List.cons_append, List.nil_append]
      simp only [strptime_dmy, expectDot_matchD2_digit3 hc2 hc3]
    have hmm : expectDash (matchM2 (pad2 m ++ '-' :: pad2 d)) = some (m, pad2 d) := by
      have hb1 : m / 10 ≤ 9 := by omega
      have hb2 : m % 10 ≤ 9 := by omega
      simp only [pad2, List.cons_append, List.nil_append]
      rw [expectDash_matchM2_two (isDigitC_digitChar hb1) (isDigitC_digitChar hb2),
        digitVal_digitChar hb1, digitVal_digitChar hb2]
      have he : 10 * (m / 10) + m % 10 = m := by omega
      rw [he, if_pos ⟨hm1, hm2⟩]
    have hdd : expectEnd (matchD2 (pad2 d)) = some d := by
      have hb1 : d / 10 ≤ 9 := by omega
      have hb2 : d % 10 ≤ 9 := by omega
      simp only [pad2]
      rw [expectEnd_matchD2_two (isDigitC_digitChar hb1) (isDigitC_digitChar hb2),
        digitVal_digitChar hb1, digitVal_digitChar hb2]
      have he : 10 * (d / 10) + d % 10 = d := by omega
      rw [he, if_pos ⟨hd1, hd2⟩]
    have hC : strptime_Ymd (pad4 y ++ ('-' :: (pad2 m ++ ('-' :: pad2 d)))) =
        some ⟨y, m, d⟩ := by
      simp only [strptime_Ymd, grab4_pad4 hy2, expectDash_dash, YmdTail, hmm, hdd,
        mkDate?_valid h]
    show parseDateCore (trimL (pad4 y ++ ('-' :: (pad2 m ++ ('-' :: pad2 d))))) =
      some ⟨y, m, d⟩
    rw [htrim]
    simp only [parseDateCore, hA, hB, hC]
  · -- day.month.2-digit-year, years 1969-2068
    intro hy69 hy68
    have htrim : trimL (render2 d ++ ('.' :: (render2 m ++ ('.' :: pad2 (y % 100))))) =
        render2 d ++ ('.' :: (render2 m ++ ('.' :: pad2 (y % 100)))) := by
      apply trimL_eq_self
      intro c hc
      simp only [List.mem_append, List.mem_cons] at hc
      rcases hc with hc | hc | hc | hc | hc
      · obtain ⟨v, hv, rfl⟩ := mem_render2 hc (by omega)
        exact isSpaceC_digitChar hv
      · subst hc; decide
      · obtain ⟨v, hv, rfl⟩ := mem_render2 hc (by omega)
        exact isSpaceC_digitChar hv
      · subst hc; decide
      · obtain ⟨v, hv, rfl⟩ := mem_pad2 hc (by omega)
        exact isSpaceC_digitChar hv
    have hA : strptime_dmY (render2 d ++ ('.' :: (render2 m ++ ('.' :: pad2 (y % 100))))) =
        none := by
      simp only [strptime_dmY, expectDot_matchD2_render2 hd1 hd2, dmYTail,
        expectDot_matchM2_render2 hm1 hm2, pad2]
      rfl
    have hB : strptime_dmy (render2 d ++ ('.' :: (render2 m ++ ('.' :: pad2 (y % 100))))) =
        some ⟨y, m, d⟩ := by
      have hb1 : y % 100 / 10 ≤ 9 := by omega
      have hb2 : y % 100 % 10 ≤ 9 := by omega
      have hval : 10 * (y % 100 / 10) + y % 100 % 10 = y % 100 := by omega
      have hend : expectEnd (grab2exact (pad2 (y % 100))) = some (y % 100) := by
        simp only [pad2]
        rw [grab2exact_digits (isDigitC_digitChar hb1) (isDigitC_digitChar hb2),
          digitVal_digitChar hb1, digitVal_digitChar hb2, hval]
        exact expectEnd_nil
      have hpiv : (if y % 100 ≤ 68 then 2000 + y % 100 else 1900 + y % 100) = y := by
        by_cases hcase : y % 100 ≤ 68
        · rw [if_pos hcase]; omega
        · rw [if_neg hcase]; omega
      simp only [strptime_dmy, expectDot_matchD2_render2 hd1 hd2, dmyTail,
        expectDot_matchM2_render2 hm1 hm2, hend, hpiv, mkDate?_valid h]
    show parseDateCore (trimL (render2 d ++ ('.' :: (render2 m ++ ('.' :: pad2 (y % 100)))))) =
      some ⟨y, m, d⟩
    rw [htrim]
    simp only [parseDateCore, hA, hB]

/-- Witness for the amended C4: 14 February 2026 round-trips through all
three literal formats. -/
theorem c4_witness :
    validYMD 2026 2 14 = true ∧
    parse_date_string (renderDMY4 2026 2 14) = some ⟨2026, 2, 14⟩ ∧
    parse_date_string (renderISO 2026 2 14) = some ⟨2026, 2, 14⟩ ∧
    parse_date_string (renderDMY2 2026 2 14) = some ⟨2026, 2, 14⟩ :=
  ⟨by decide, (c4_roundtrip 2026 2 14 (by decide)).1,
   (c4_roundtrip 2026 2 14 (by decide)).2.1,
   (c4_roundtrip 2026 2 14 (by decide)).2.2 (by omega) (by omega)⟩

/-- When the fallback regex shape matches but the numeric combination is
not a valid calendar date, the whole parse chain yields nothing: every
strptime format fails on the shaped input and the fallback's `date`
construction is the caught `ValueError`. -/
theorem parseDateCore_none_of_invalid {cs : List Char} {d m y : Nat}
    (hF : fullmatchDMY cs = some (d, m, y)) (hv : mkDate? y m d = none) :
    parseDateCore cs = none := by
  obtain ⟨cs1, cs2, hg1, hg2, hg4⟩ := fullmatchDMY_inv hF
  obtain ⟨y1, y2, y3, y4, rfl, hy1, hy2, hy3, hy4, rfl⟩ := grab4_nil_inv hg4
  rcases grab2_dot_inv hg2 with ⟨b1, b2, rfl, hb1, hb2, rfl⟩ | ⟨b1, rfl, hb1, rfl⟩ <;>
    rcases grab2_dot_inv hg1 with ⟨a1, a2, rfl, ha1, ha2, rfl⟩ | ⟨a1, rfl, ha1, rfl⟩
  · -- two-digit day, two-digit month
    have hA : strptime_dmY (a1 :: a2 :: '.' :: b1 :: b2 :: '.' :: [y1, y2, y3, y4]) =
        none := by
      simp only [strptime_dmY, expectDot_matchD2_two ha1 ha2]
      by_cases hd : 1 ≤ 10 * digitVal a1 + digitVal a2 ∧
          10 * digitVal a1 + digitVal a2 ≤ 31
      · simp only [if_pos hd, dmYTail_two_y4 hb1 hb2 hy1 hy2 hy3 hy4]
        by_cases hm : 1 ≤ 10 * digitVal b1 + digitVal b2 ∧
            10 * digitVal b1 + digitVal b2 ≤ 12
        · simp only [if_pos hm]
          exact hv
        · simp only [if_neg hm]
      · simp only [if_neg hd]
    have hB : strptime_dmy (a1 :: a2 :: '.' :: b1 :: b2 :: '.' :: [y1, y2, y3, y4]) =
        none := by
      simp only [strptime_dmy, expectDot_matchD2_two ha1 ha2]
      by_cases hd : 1 ≤ 10 * digitVal a1 + digitVal a2 ∧
          10 * digitVal a1 + digitVal a2 ≤ 31
      · simp only [if_pos hd, dmyTail_two_y4 hb1 hb2 hy1 hy2]
      · simp only [if_neg hd]
    exact parseDateCore_of_stages hA hB (strptime_Ymd_dot2 _) hF hv
  · -- one-digit day, two-digit month
    have hA : strptime_dmY (a1 :: '.' :: b1 :: b2 :: '.' :: [y1, y2, y3, y4]) =
        none := by
      simp only [strptime_dmY, expectDot_matchD2_one ha1]
      by_cases hd : 1 ≤ digitVal a1
      · simp only [if_pos hd, dmYTail_two_y4 hb1 hb2 hy1 hy2 hy3 hy4]
        by_cases hm : 1 ≤ 10 * digitVal b1 + digitVal b2 ∧
            10 * digitVal b1 + digitVal b2 ≤ 12
        · simp only [if_pos hm]
          exact hv
        · simp only [if_neg hm]
      · simp only [if_neg hd]
    have hB : strptime_dmy (a1 :: '.' :: b1 :: b2 :: '.' :: [y1, y2, y3, y4]) =
        none := by
      simp only [strptime_dmy, expectDot_matchD2_one ha1]
      by_cases hd : 1 ≤ digitVal a1
      · simp only [if_pos hd, dmyTail_two_y4 hb1 hb2 hy1 hy2]
      · simp only [if_neg hd]
    exact parseDateCore_of_stages hA hB (strptime_Ymd_dot1 _) hF hv
  · -- two-digit day, one-digit month
    have hA : strptime_dmY (a1 :: a2 :: '.' :: b1 :: '.' :: [y1, y2, y3, y4]) =
        none := by
      simp only [strptime_dmY, expectDot_matchD2_two ha1 ha2]
      by_cases hd : 1 ≤ 10 * digitVal a1 + digitVal a2 ∧
          10 * digitVal a1 + digitVal a2 ≤ 31
      · simp only [if_pos hd, dmYTail_one_y4 hb1 hy1 hy2 hy3 hy4]
        by_cases hm : 1 ≤ digitVal b1
        · simp only [if_pos hm]
          exact hv
        · simp only [if_neg hm]
      · simp only [if_neg hd]
    have hB : strptime_dmy (a1 :: a2 :: '.' :: b1 :: '.' :: [y1, y2, y3, y4]) =
        none := by
      simp only [strptime_dmy, expectDot_matchD2_two ha1 ha2]
      by_cases hd : 1 ≤ 10 * digitVal a1 + digitVal a2 ∧
          10 * digitVal a1 + digitVal a2 ≤ 31
      · simp only [if_pos hd, dmyTail_one_y4 hb1 hy1 hy2]
      · simp only [if_neg hd]
    exact parseDateCore_of_stages hA hB (strptime_Ymd_dot2 _) hF hv
  · -- one-digit day, one-digit month
    have hA : strptime_dmY (a1 :: '.' :: b1 :: '.' :: [y1, y2, y3, y4]) = none := by
      simp only [strptime_dmY, expectDot_matchD2_one ha1]
      by_cases hd : 1 ≤ digitVal a1
      · simp only [if_pos hd, dmYTail_one_y4 hb1 hy1 hy2 hy3 hy4]
        by_cases hm : 1 ≤ digitVal b1
        · simp only [if_pos hm]
          exact hv
        · simp only [if_neg hm]
      · simp only [if_neg hd]
    have hB : strptime_dmy (a1 :: '.' :: b1 :: '.' :: [y1, y2, y3, y4]) = none := by
      simp only [strptime_dmy, expectDot_matchD2_one ha1]
      by_cases hd : 1 ≤ digitVal a1
      · simp only [if_pos hd, dmyTail_one_y4 hb1 hy1 hy2]
      · simp only [if_neg hd]
    exact parseDateCore_of_stages hA hB (strptime_Ymd_dot1 _) hF hv

/-- C9: the Date Parser is total — for every input string it returns either
a date or nothing, never an error — and in particular a token matching the
`\d{1,2}\.\d{1,2}\.\d{4}` shape whose day/month/year combination is not a
valid calendar date yields no result. -/
theorem c9_parser_total_and_safe :
    (∀ s : String, parse_date_string s = none ∨ ∃ dt, parse_date_string s = some dt) ∧
    (∀ (s : String) (d m y : Nat), fullmatchDMY (trimL s.data) = some (d, m, y) →
      validYMD y m d = false → parse_date_string s = none) := by
  constructor
  · intro s
    cases hp : parse_date_string s with
    | none => exact Or.inl rfl
    | some dt => exact Or.inr ⟨dt, rfl⟩
  · intro s d m y hF hv
    have hmk : mkDate? y m d = none := by simp [mkDate?, hv]
    show parseDateCore (trimL s.data) = none
    exact parseDateCore_none_of_invalid hF hmk

/-- Witness for C9: `31.2.2026` matches the shape, is no valid date, and
parses to nothing. -/
theorem c9_witness :
    fullmatchDMY (trimL "31.2.2026".data) = some (31, 2, 2026) ∧
    validYMD 2026 2 31 = false ∧
    parse_date_string "31.2.2026" = none :=
  ⟨by decide, by decide,
   c9_parser_total_and_safe.2 "31.2.2026" 31 2 2026 (by decide) (by decide)⟩

end FundingWatch
